import Mathlib

/-!
Verification development for the job-recommendation dashboard
(`streamlit_app.py`).

The embedding below models the two pieces of in-scope logic and the glue
around them:

* `format_salary` mirrors the Python function `format_salary` (lines 31-56):
  an experience-level multiplier, then a currency/scale branch keyed on a
  case-insensitive substring check for `"india"`.  Python floats are
  modelled as exact rationals (`ℚ`); the literals `0.8`, `1.2`, `1.5` become
  `8/10`, `12/10`, `15/10`.  Python's fixed-point formatting `:.1f` / `:.2f`
  rounds correctly to nearest with ties to even on the value being
  formatted; `formatFixed` implements exactly that on `ℚ`.  At every input
  appearing in a concrete theorem below the float value is exactly
  representable, so the rational model and CPython agree there.

* `top_idx` mirrors `similarity.argsort()[-k:][::-1]` (lines 140 and 184).
  The similarity vector produced by the out-of-scope TF-IDF artifact is a
  black box, so ranking facts are stated for an arbitrary score vector
  `s : List ℚ`.  `argsort` is modelled as the stable ascending sort of the
  index range, i.e. ascending by score with equal scores kept in index
  order; the slice `[-k:]` keeps the last `min k n` entries and `[::-1]`
  reverses them, which is `(·.reverse.take k)` of the ascending order.

* `argmax` mirrors `similarity.argmax()` (line 203): the first index
  attaining the maximum.

* `data_cleanup` mirrors the cleanup block (lines 19-26): missing
  `avg_hourly_rate` becomes `0`, missing `country` becomes `"Unknown"`,
  missing `job_type` becomes a random pick from the fixed five-element
  list; the random picks are modelled as an explicit oracle `ℕ → Fin 5`.

* The section models (`recommend_section`, `country_section`,
  `remote_section`, `skill_section`, `resume_section`) mirror the
  per-widget blocks: guard on the raw input, then build a fresh result
  table from the corpus, never writing back to it.
-/

/-- ASCII lower-casing of one character, the fragment of Python's
`str.lower` exercised by the program (country names and titles). -/
def lowerChar (c : Char) : Char :=
  if 'A' ≤ c ∧ c ≤ 'Z' then Char.ofNat (c.toNat + 32) else c

/-- Model of Python's `str.lower` on the ASCII range. -/
def lowerStr (s : String) : String := String.mk (s.data.map lowerChar)

/-- Does the first list occur at the head of the second? -/
def leadsChars : List Char → List Char → Bool
  | [], _ => true
  | _ :: _, [] => false
  | a :: as, b :: bs => a == b && leadsChars as bs

/-- Does the first list occur contiguously anywhere in the second? -/
def occursChars : List Char → List Char → Bool
  | needle, [] => leadsChars needle []
  | needle, b :: bs => leadsChars needle (b :: bs) || occursChars needle bs

/-- Model of Python's `needle in hay` on strings. -/
def occursIn (needle hay : String) : Bool := occursChars needle.data hay.data

/-- Round a rational to the nearest integer, ties to even: the rounding
CPython applies when formatting a float with `:.1f` / `:.2f` (the tie case
arises only when the value is exactly representable, e.g. `2.25`). -/
def roundHalfEven (q : ℚ) : ℤ :=
  let f : ℤ := ⌊q⌋
  if q - f < 1/2 then f
  else if (1:ℚ)/2 < q - f then f + 1
  else if f % 2 = 0 then f else f + 1

/-- Render a scaled integer `z` (the value times `10 ^ d`) as a decimal
string with `d` digits after the point, as CPython prints it. -/
def render (z : ℤ) (d : ℕ) : String :=
  let m := z.natAbs
  let p : ℕ := 10 ^ d
  let ip := m / p
  let fp := m % p
  let fs := Nat.repr fp
  let pad := String.mk (List.replicate (d - fs.length) '0')
  (if z < 0 then "-" else "") ++ Nat.repr ip ++ (if d = 0 then "" else "." ++ pad ++ fs)

/-- Model of the f-string directive `:.df`: fixed-point with `d` decimal
digits, correctly rounded with ties to even. -/
def formatFixed (q : ℚ) (d : ℕ) : String := render (roundHalfEven (q * 10 ^ d)) d

/-- Source lines 33-39: the experience-level multiplier chain.  The source
initialises `multiplier = 1.0` and overwrites it for `"Fresher"`,
`"Mid-Level"` and `"Senior"`; note that `"Mid-Level"` IS explicitly
assigned `1.2` on lines 36-37. -/
def experience_multiplier (experience_level : String) : ℚ :=
  if experience_level = "Fresher" then 8/10
  else if experience_level = "Mid-Level" then 12/10
  else if experience_level = "Senior" then 15/10
  else 1

/-- Source lines 31-56, `format_salary`: multiplier, `rate = rate *
multiplier`, then the INR/USD scale branches keyed on `"india" in
country.lower()`. -/
def format_salary (rate : ℚ) (country : String) (experience_level : String) : String :=
  let multiplier : ℚ :=
    if experience_level = "Fresher" then 8/10
    else if experience_level = "Mid-Level" then 12/10
    else if experience_level = "Senior" then 15/10
    else 1
  let rate := rate * multiplier
  if occursIn "india" (lowerStr country) then
    if 100000 ≤ rate then "₹" ++ formatFixed (rate / 100000) 1 ++ " Lakh"
    else if 1000 ≤ rate then "₹" ++ formatFixed (rate / 1000) 1 ++ " Thousand"
    else "₹" ++ formatFixed rate 2 ++ "/hr"
  else
    if 100000 ≤ rate then "$" ++ formatFixed (rate / 100000) 1 ++ "K"
    else if 1000 ≤ rate then "$" ++ formatFixed (rate / 1000) 1 ++ "K"
    else "$" ++ formatFixed rate 2 ++ "/hr"

/-- Written from the spec's words (section 4.3, steps 3-4): given the
already-adjusted rate, pick the INR scale when the country contains
`"india"` case-insensitively, the USD scale otherwise, with thresholds at
`100000` and `1000`.  Used to compare the source function against the
specified formatting stage. -/
def spec_format (adjusted : ℚ) (country : String) : String :=
  if occursIn "india" (lowerStr country) then
    if 100000 ≤ adjusted then "₹" ++ formatFixed (adjusted / 100000) 1 ++ " Lakh"
    else if 1000 ≤ adjusted then "₹" ++ formatFixed (adjusted / 1000) 1 ++ " Thousand"
    else "₹" ++ formatFixed adjusted 2 ++ "/hr"
  else
    if 100000 ≤ adjusted then "$" ++ formatFixed (adjusted / 100000) 1 ++ "K"
    else if 1000 ≤ adjusted then "$" ++ formatFixed (adjusted / 1000) 1 ++ "K"
    else "$" ++ formatFixed adjusted 2 ++ "/hr"

/-- Ascending comparison used to model `numpy.argsort` on a score vector
`s`: by score, with equal scores kept in index order. -/
def lexLe (s : List ℚ) (i j : ℕ) : Prop :=
  s.getD i 0 < s.getD j 0 ∨ (s.getD i 0 = s.getD j 0 ∧ i ≤ j)

instance (s : List ℚ) : DecidableRel (lexLe s) := fun _ _ => by
  unfold lexLe; infer_instance

instance (s : List ℚ) : IsTotal ℕ (lexLe s) := by
  constructor
  intro i j
  rcases lt_trichotomy (s.getD i 0) (s.getD j 0) with h | h | h
  · exact Or.inl (Or.inl h)
  · rcases Nat.le_total i j with hij | hij
    · exact Or.inl (Or.inr ⟨h, hij⟩)
    · exact Or.inr (Or.inr ⟨h.symm, hij⟩)
  · exact Or.inr (Or.inl h)

instance (s : List ℚ) : IsTrans ℕ (lexLe s) := by
  constructor
  intro a b c hab hbc
  rcases hab with h1 | ⟨e1, l1⟩
  · rcases hbc with h2 | ⟨e2, _⟩
    · exact Or.inl (h1.trans h2)
    · exact Or.inl (e2 ▸ h1)
  · rcases hbc with h2 | ⟨e2, l2⟩
    · exact Or.inl (e1 ▸ h2)
    · exact Or.inr ⟨e1.trans e2, l1.trans l2⟩

/-- Model of `similarity.argsort()`: the index range `0 .. n-1` sorted
ascending by score, equal scores in index order. -/
def argsortAsc (s : List ℚ) : List ℕ := List.insertionSort (lexLe s) (List.range s.length)

/-- Source lines 140 and 184: `similarity.argsort()[-k:][::-1]` — the last
`min k n` entries of the ascending order, reversed. -/
def top_idx (s : List ℚ) (k : ℕ) : List ℕ := ((argsortAsc s).reverse).take k

/-- Source line 203, `similarity.argmax()`: the first index attaining the
maximum score (`0` on the empty vector, where numpy instead raises). -/
def argmax : List ℚ → ℕ
  | [] => 0
  | [_] => 0
  | v :: w :: t =>
    if v < (w :: t).getD (argmax (w :: t)) 0 then argmax (w :: t) + 1 else 0

/-- Source line 19: the fixed five-element fallback list for `job_type`. -/
def job_types : List String :=
  ["Permanent Full-time", "Part-time", "Work From Home", "On-site", "Contract"]

/-- A raw corpus row before cleanup: the three normalised columns may be
missing (pandas `NaN`), the title is kept as text. -/
structure RawJob where
  title : String
  avg_hourly_rate : Option ℚ
  country : Option String
  job_type : Option String
deriving DecidableEq

/-- A corpus row after cleanup. -/
structure Job where
  title : String
  avg_hourly_rate : ℚ
  country : String
  job_type : String
deriving DecidableEq

/-- The random `job_type` fallback: `random.choice(job_types)` modelled by
an index into `job_types`. -/
def pick_type (k : Fin 5) : String := job_types.getD k.val ""

/-- Cleanup of one row, source lines 23-26: `fillna` on the three
columns. -/
def clean_job (pick : Fin 5) (r : RawJob) : Job :=
  Job.mk r.title (r.avg_hourly_rate.getD 0) (r.country.getD "Unknown")
    (r.job_type.getD (pick_type pick))

/-- Source lines 19-26, the cleanup pass: each row's missing fields are
filled, with one random pick per row supplied by the oracle `picks`. -/
def data_cleanup : List RawJob → (ℕ → Fin 5) → List Job
  | [], _ => []
  | r :: rest, picks => clean_job (picks 0) r :: data_cleanup rest (fun i => picks (i + 1))

/-- A result-table row: the selected job columns plus the added
`"Formatted Salary"` column. -/
structure SalaryRow where
  job : Job
  formatted_salary : String
deriving DecidableEq

/-- Building one display row, e.g. source line 142: the `"Formatted
Salary"` column is `format_salary` of the row's own rate and country at
the given experience level. -/
def with_salary (lvl : String) (j : Job) : SalaryRow :=
  SalaryRow.mk j (format_salary j.avg_hourly_rate j.country lvl)

/-- `df.iloc[idxs]`: positional row selection. -/
def select_rows (df : List Job) (idxs : List ℕ) : List Job :=
  idxs.filterMap (fun i => df[i]?)

/-- Source lines 141-142: the recommendation table — the top-5 rows by
similarity, with the salary column formatted at the hard-coded
`"Mid-Level"` level. -/
def recommend_results (df : List Job) (s : List ℚ) : List SalaryRow :=
  (select_rows df (top_idx s 5)).map (with_salary "Mid-Level")

/-- Source lines 156-158: exact-match country filter, salary column at
`"Mid-Level"`. -/
def country_rows (df : List Job) (c : String) : List SalaryRow :=
  (df.filter (fun j => j.country == c)).map (with_salary "Mid-Level")

/-- Source lines 167-169: rows whose title contains `"remote"`
case-insensitively, salary column at `"Mid-Level"`. -/
def remote_rows (df : List Job) : List SalaryRow :=
  (df.filter (fun j => occursIn "remote" (lowerStr j.title))).map (with_salary "Mid-Level")

/-- Source lines 184-185: the skill-gap table — top-3 rows by
similarity (no salary column). -/
def skill_results (df : List Job) (s : List ℚ) : List Job :=
  select_rows df (top_idx s 3)

/-- Source lines 203-206: the resume best match — the row at
`similarity.argmax()`, with the salary formatted at the user-selected
experience level. -/
def resume_result (df : List Job) (s : List ℚ) (lvl : String) : Option SalaryRow :=
  (df[argmax s]?).map (with_salary lvl)

/-- Output of the recommendation section: a result table, or the idle
informational prompt of line 147. -/
inductive RecOut
  | results (rows : List SalaryRow)
  | info
deriving DecidableEq

/-- Output of the country-filter section: a table or the line-161
warning. -/
inductive CountryOut
  | rows (rows : List SalaryRow)
  | warning
deriving DecidableEq

/-- Output of the skill-gap section: a table or the line-189 prompt. -/
inductive SkillOut
  | table (rows : List Job)
  | info
deriving DecidableEq

/-- Output of the resume section: a match or the line-218 warning. -/
inductive ResumeOut
  | result (row : Option SalaryRow)
  | warning
deriving DecidableEq

/-- Source lines 136-147: the recommendation section computes only when
the text input is truthy (non-empty).  The TF-IDF pipeline is the black
box `vec`, mapping the query to the similarity vector. -/
def recommend_section (df : List Job) (vec : String → List ℚ) (job_input : String) : RecOut :=
  if job_input = "" then RecOut.info
  else RecOut.results (recommend_results df (vec job_input))

/-- Source lines 156-161: the country filter always runs on the selected
country and warns when the filtered frame is empty. -/
def country_section (df : List Job) (c : String) : CountryOut :=
  if country_rows df c = [] then CountryOut.warning else CountryOut.rows (country_rows df c)

/-- Source lines 167-172: the remote listing. -/
def remote_section (df : List Job) : CountryOut :=
  if remote_rows df = [] then CountryOut.warning else CountryOut.rows (remote_rows df)

/-- Source lines 180-189: the skill-gap section computes only when the
skills input is non-empty. -/
def skill_section (df : List Job) (vec : String → List ℚ) (skills_input : String) : SkillOut :=
  if skills_input = "" then SkillOut.info
  else SkillOut.table (skill_results df (vec skills_input))

/-- Python whitespace characters relevant to `str.strip` on the ASCII
range. -/
def py_isspace (c : Char) : Bool :=
  c == ' ' || c == '\t' || c == '\n' || c == '\r' || c == '\x0b' || c == '\x0c'

/-- Is `resume_text.strip()` falsy, i.e. is the text blank or
whitespace-only? -/
def py_blank (s : String) : Bool := s.data.all py_isspace

/-- Source lines 198-218: the resume section warns and computes nothing
when the pasted text is blank or whitespace-only. -/
def resume_section (df : List Job) (vec : String → List ℚ) (experience_level resume_text : String) :
    ResumeOut :=
  if py_blank resume_text then ResumeOut.warning
  else ResumeOut.result (resume_result df (vec resume_text) experience_level)

/-- The in-memory application state after the one-time load-and-normalize
pass: just the corpus. -/
structure AppState where
  df : List Job
deriving DecidableEq

/-- The recommendation interaction as a state transformer: it reads the
corpus and returns it untouched alongside the fresh output. -/
def recommend_op (st : AppState) (vec : String → List ℚ) (q : String) : AppState × RecOut :=
  (st, recommend_section st.df vec q)

/-- The country-filter interaction as a state transformer. -/
def country_op (st : AppState) (c : String) : AppState × CountryOut :=
  (st, country_section st.df c)

/-- The remote-listing interaction as a state transformer. -/
def remote_op (st : AppState) : AppState × CountryOut :=
  (st, remote_section st.df)

/-- The skill-gap interaction as a state transformer. -/
def skill_op (st : AppState) (vec : String → List ℚ) (q : String) : AppState × SkillOut :=
  (st, skill_section st.df vec q)

/-- The resume-analysis interaction as a state transformer. -/
def resume_op (st : AppState) (vec : String → List ℚ) (lvl txt : String) : AppState × ResumeOut :=
  (st, resume_section st.df vec lvl txt)

/-- Characterisation of `roundHalfEven` once the enclosing integer `z` is
known, used to evaluate concrete roundings. -/
theorem roundHalfEven_eq (q : ℚ) (z : ℤ) (hle : (z : ℚ) ≤ q) (hlt : q < z + 1) :
    roundHalfEven q =
      if q - z < 1/2 then z
      else if (1:ℚ)/2 < q - z then z + 1
      else if z % 2 = 0 then z else z + 1 := by
  unfold roundHalfEven
  rw [Int.floor_eq_iff.mpr ⟨hle, hlt⟩]

/-- Evaluation: `1.44` printed with one decimal digit is `"1.4"`. -/
theorem formatFixed_144 : formatFixed (36/25) 1 = "1.4" := by
  have h : (36:ℚ)/25 * 10 ^ 1 = 72/5 := by norm_num
  rw [formatFixed, h, roundHalfEven_eq (72/5) 14 (by norm_num) (by norm_num)]
  norm_num
  decide

/-- Evaluation: the salary formatter on `(120000, "India", "Mid-Level")`
yields `"₹1.4 Lakh"` — the multiplier `1.2` on lines 36-37 raises the rate
to `144000`. -/
theorem format_salary_midlevel_india :
    format_salary 120000 "India" "Mid-Level" = "₹1.4 Lakh" := by
  have hne : ("Mid-Level" : String) ≠ "Fresher" := by decide
  have hin : occursIn "india" (lowerStr "India") = true := by decide
  unfold format_salary
  norm_num [hne, hin, formatFixed_144]
  decide

/-- Evaluation: `2.25` printed with one decimal digit is `"2.2"` (tie,
rounded to even). -/
theorem formatFixed_225 : formatFixed (9/4) 1 = "2.2" := by
  have h : (9:ℚ)/4 * 10 ^ 1 = 45/2 := by norm_num
  rw [formatFixed, h, roundHalfEven_eq (45/2) 22 (by norm_num) (by norm_num)]
  norm_num
  decide

/-- Evaluation: the salary formatter on `(150000, "United States",
"Senior")` yields `"$2.2K"`. -/
theorem format_salary_senior_us :
    format_salary 150000 "United States" "Senior" = "$2.2K" := by
  have hne1 : ("Senior" : String) ≠ "Fresher" := by decide
  have hne2 : ("Senior" : String) ≠ "Mid-Level" := by decide
  have hin : occursIn "india" (lowerStr "United States") = false := by decide
  unfold format_salary
  norm_num [hne1, hne2, hin, formatFixed_225]
  decide

/-- Evaluation: `0` printed with two decimal digits is `"0.00"`. -/
theorem formatFixed_zero : formatFixed 0 2 = "0.00" := by
  have h : (0:ℚ) * 10 ^ 2 = 0 := by norm_num
  rw [formatFixed, h, roundHalfEven_eq 0 0 (by norm_num) (by norm_num)]
  norm_num
  decide

/-- Evaluation: the salary formatter on `(0, "India", "Fresher")` yields
`"₹0.00/hr"`. -/
theorem format_salary_zero_india :
    format_salary 0 "India" "Fresher" = "₹0.00/hr" := by
  unfold format_salary
  norm_num [formatFixed_zero]
  decide

/-- C1 counterexample: in the source the `"Mid-Level"` level does NOT fall
through to the base multiplier `1.0` — lines 36-37 assign it `1.2` — and
`format_salary(120000, "India", "Mid-Level")` is not `"₹1.2 Lakh"`. -/
theorem C1_counterexample :
    experience_multiplier "Mid-Level" ≠ 1 ∧
    format_salary 120000 "India" "Mid-Level" ≠ "₹1.2 Lakh" := by
  constructor
  · have hne : ("Mid-Level" : String) ≠ "Fresher" := by decide
    norm_num [experience_multiplier, hne]
  · rw [format_salary_midlevel_india]
    decide

/-- C1 (amended): the salary formatter, called with experience level
`"Mid-Level"`, applies multiplier `1.2` (explicitly assigned on source
lines 36-37); in particular `format(120000, "India", "Mid-Level")` has
adjusted rate `144000` and returns `"₹1.4 Lakh"`. -/
theorem C1_amended_thm :
    experience_multiplier "Mid-Level" = 12/10 ∧
    (120000 : ℚ) * experience_multiplier "Mid-Level" = 144000 ∧
    format_salary 120000 "India" "Mid-Level" = "₹1.4 Lakh" := by
  have hne : ("Mid-Level" : String) ≠ "Fresher" := by decide
  refine ⟨by norm_num [experience_multiplier, hne], by norm_num [experience_multiplier, hne], ?_⟩
  exact format_salary_midlevel_india

/-- C3: for every non-negative rate, country and experience level, the
formatter output equals the spec's formatting of the adjusted rate —
INR scale with `Lakh`/`Thousand`/`/hr` tiers when the country contains
`"india"` case-insensitively, USD scale with `K`/`K`/`/hr` tiers
otherwise; in particular `format(0, "India", "Fresher") = "₹0.00/hr"`. -/
theorem C3_thm :
    (∀ (rate : ℚ) (country lvl : String), 0 ≤ rate →
      format_salary rate country lvl = spec_format (rate * experience_multiplier lvl) country) ∧
    format_salary 0 "India" "Fresher" = "₹0.00/hr" :=
  ⟨fun _ _ _ _ => rfl, format_salary_zero_india⟩

/-- C3 witness: the refinement instantiated at `(3, "India", "Senior")`. -/
theorem C3_witness :
    format_salary 3 "India" "Senior" = spec_format (3 * experience_multiplier "Senior") "India" :=
  C3_thm.1 3 "India" "Senior" (by norm_num)

/-- C4: the formatter computes `adjusted = rate * multiplier` with
multiplier `0.8` for `"Fresher"`, `1.5` for `"Senior"`, and `1.0` for any
level that is none of the three named ones. -/
theorem C4_thm : ∀ (rate : ℚ) (country : String),
    format_salary rate country "Fresher" = spec_format (rate * (8/10)) country ∧
    format_salary rate country "Senior" = spec_format (rate * (15/10)) country ∧
    ∀ lvl, lvl ≠ "Fresher" → lvl ≠ "Mid-Level" → lvl ≠ "Senior" →
      format_salary rate country lvl = spec_format (rate * 1) country := by
  intro rate country
  refine ⟨rfl, rfl, ?_⟩
  intro lvl h1 h2 h3
  simp [format_salary, spec_format, h1, h2, h3]

/-- C4 witness: an unrecognized level takes the base multiplier `1`. -/
theorem C4_witness :
    format_salary 7 "India" "Intern" = spec_format (7 * 1) "India" :=
  (C4_thm 7 "India").2.2 "Intern" (by decide) (by decide) (by decide)

/-- C5 counterexample: `format(150000, "United States", "Senior")` does
not return `"$2.3K"` — CPython's `:.1f` rounds the exactly-representable
`2.25` half-to-even, down to `2.2`. -/
theorem C5_counterexample :
    format_salary 150000 "United States" "Senior" ≠ "$2.3K" := by
  rw [format_salary_senior_us]
  decide

/-- C5 (amended): `format(150000, "United States", "Senior")` yields
adjusted rate `225000` and returns `"$2.2K"` (`225000/100000 = 2.25`
formatted to one decimal digit rounds half-to-even to `"2.2"`). -/
theorem C5_amended_thm :
    (150000 : ℚ) * experience_multiplier "Senior" = 225000 ∧
    format_salary 150000 "United States" "Senior" = "$2.2K" := by
  have hne1 : ("Senior" : String) ≠ "Fresher" := by decide
  have hne2 : ("Senior" : String) ≠ "Mid-Level" := by decide
  exact ⟨by norm_num [experience_multiplier, hne1, hne2], format_salary_senior_us⟩

/-- C2 counterexample: on the two-record corpus with equal scores `[0, 0]`
and `k = 2`, `top_idx` returns `[1, 0]`: the ranking is NOT stable in
corpus order — among equal scores the record later in the corpus comes
first, because the ascending argsort slice is reversed. -/
theorem C2_counterexample :
    top_idx [(0:ℚ), 0] 2 = [1, 0] ∧
    ¬ List.Pairwise (fun i j =>
        ([(0:ℚ), 0]).getD j 0 < ([(0:ℚ), 0]).getD i 0 ∨
        (([(0:ℚ), 0]).getD i 0 = ([(0:ℚ), 0]).getD j 0 ∧ i ≤ j))
      (top_idx [(0:ℚ), 0] 2) := by
  constructor
  · decide
  · decide

/-- C2 (amended): for every score vector and every `k`, the ranking
returns exactly `min k n` pairwise-distinct valid indices, ordered by
descending score, with ties broken by REVERSE corpus order: among equal
scores the record later in the corpus comes first (both in ordering and in
selection at the score cutoff, since the kept entries are the largest
`min k n` under the lexicographic order on score then index). -/
theorem C2_amended_thm : ∀ (s : List ℚ) (k : ℕ),
    (top_idx s k).length = min k s.length ∧
    (top_idx s k).Nodup ∧
    (∀ i, i ∈ top_idx s k → i < s.length) ∧
    List.Pairwise (fun i j =>
      s.getD j 0 < s.getD i 0 ∨ (s.getD i 0 = s.getD j 0 ∧ j ≤ i)) (top_idx s k) := by
  intro s k
  have hperm : List.Perm (argsortAsc s) (List.range s.length) := List.perm_insertionSort _ _
  have hlen : (argsortAsc s).length = s.length := by
    simpa [List.length_range] using hperm.length_eq
  refine ⟨?_, ?_, ?_, ?_⟩
  · simp [top_idx, hlen]
  · exact List.Nodup.sublist (List.take_sublist _ _)
      (List.nodup_reverse.mpr (hperm.nodup_iff.mpr (List.nodup_range _)))
  · intro i hi
    have h1 : i ∈ (argsortAsc s).reverse := (List.take_sublist _ _).subset hi
    have h2 : i ∈ argsortAsc s := List.mem_reverse.mp h1
    exact List.mem_range.mp (hperm.subset h2)
  · have hs : List.Sorted (lexLe s) (argsortAsc s) :=
      List.sorted_insertionSort (lexLe s) (List.range s.length)
    have hrev : List.Pairwise (fun i j => lexLe s j i) ((argsortAsc s).reverse) :=
      List.pairwise_reverse.mpr hs
    have htake := List.Pairwise.sublist (List.take_sublist k _) hrev
    refine htake.imp ?_
    intro i j h
    rcases h with h | ⟨he, hle⟩
    · exact Or.inl h
    · exact Or.inr ⟨he.symm, hle⟩

/-- C2 witness: on the two-record corpus with scores `[5, 0]` the ranking
at `k = 2` contains index `1`, which is indeed below the corpus size. -/
theorem C2_witness : (1 : ℕ) < ([(5:ℚ), 0]).length :=
  (C2_amended_thm [(5:ℚ), 0] 2).2.2.1 1 (by decide)

/-- C7: on a non-empty score vector, `argmax` is a valid index holding the
maximum score, every strictly earlier index holds a strictly smaller
score (so on ties the smallest corpus index wins), and the resume-match
operation returns exactly the record at that index. -/
theorem C7_thm : ∀ (s : List ℚ), s ≠ [] →
    argmax s < s.length ∧
    (∀ j, j < s.length → s.getD j 0 ≤ s.getD (argmax s) 0) ∧
    (∀ j, j < argmax s → s.getD j 0 < s.getD (argmax s) 0) ∧
    ∀ (df : List Job) (lvl : String), df.length = s.length →
      ∃ jb, df[argmax s]? = some jb ∧
        resume_result df s lvl = some (with_salary lvl jb)
  | [], h => absurd rfl h
  | [v], _ => by
    refine ⟨by simp [argmax], ?_, ?_, ?_⟩
    · intro j hj
      have hj0 : j = 0 := Nat.lt_one_iff.mp (by simpa using hj)
      subst hj0
      simp [argmax]
    · intro j hj
      simp [argmax] at hj
    · intro df lvl hdf
      have hlt : argmax [v] < df.length := by simp [argmax, hdf]
      refine ⟨df[argmax [v]], List.getElem?_eq_getElem hlt, ?_⟩
      rw [resume_result, List.getElem?_eq_getElem hlt]
      rfl
  | v :: w :: t, _ => by
    obtain ⟨ih1, ih2, ih3, _⟩ := C7_thm (w :: t) (by simp)
    have hsel : ∀ (hlt : argmax (v :: w :: t) < (v :: w :: t).length),
        ∀ (df : List Job) (lvl : String), df.length = (v :: w :: t).length →
        ∃ jb, df[argmax (v :: w :: t)]? = some jb ∧
          resume_result df (v :: w :: t) lvl = some (with_salary lvl jb) := by
      intro hlt df lvl hdf
      have hlt' : argmax (v :: w :: t) < df.length := by rw [hdf]; exact hlt
      refine ⟨df[argmax (v :: w :: t)], List.getElem?_eq_getElem hlt', ?_⟩
      rw [resume_result, List.getElem?_eq_getElem hlt']
      rfl
    by_cases hv : v < (w :: t).getD (argmax (w :: t)) 0
    · have ha : argmax (v :: w :: t) = argmax (w :: t) + 1 := by
        simp only [argmax]
        rw [if_pos hv]
      have h1 : argmax (v :: w :: t) < (v :: w :: t).length := by
        rw [ha]
        simpa [List.length_cons] using Nat.succ_lt_succ ih1
      refine ⟨h1, ?_, ?_, hsel h1⟩
      · intro j hj
        rw [ha]
        cases j with
        | zero =>
          rw [List.getD_cons_zero, List.getD_cons_succ]
          exact le_of_lt hv
        | succ j' =>
          have hj' : j' < (w :: t).length := by simpa [List.length_cons] using hj
          rw [List.getD_cons_succ, List.getD_cons_succ]
          exact ih2 j' hj'
      · intro j hj
        rw [ha] at hj ⊢
        cases j with
        | zero =>
          rw [List.getD_cons_zero, List.getD_cons_succ]
          exact hv
        | succ j' =>
          have hj' : j' < argmax (w :: t) := Nat.lt_of_succ_lt_succ hj
          rw [List.getD_cons_succ, List.getD_cons_succ]
          exact ih3 j' hj'
    · have ha : argmax (v :: w :: t) = 0 := by
        simp only [argmax]
        rw [if_neg hv]
      have h1 : argmax (v :: w :: t) < (v :: w :: t).length := by
        rw [ha]; simp
      refine ⟨h1, ?_, ?_, hsel h1⟩
      · intro j hj
        rw [ha]
        cases j with
        | zero => exact le_rfl
        | succ j' =>
          have hj' : j' < (w :: t).length := by simpa [List.length_cons] using hj
          rw [List.getD_cons_succ, List.getD_cons_zero]
          exact (ih2 j' hj').trans (le_of_not_lt hv)
      · intro j hj
        rw [ha] at hj
        exact absurd hj (Nat.not_lt_zero j)

/-- C7 witness: on scores `[1, 2, 2]` the maximum `2` is attained at
indices `1` and `2` and `argmax` picks the earlier one, a valid index; the
resume match on a three-record corpus returns that record. -/
theorem C7_witness :
    argmax [(1:ℚ), 2, 2] < ([(1:ℚ), 2, 2]).length ∧
    ∃ jb, ([Job.mk "a" 1 "India" "Contract", Job.mk "b" 2 "Unknown" "Part-time",
            Job.mk "c" 3 "Unknown" "On-site"] : List Job)[argmax [(1:ℚ), 2, 2]]? = some jb ∧
      resume_result [Job.mk "a" 1 "India" "Contract", Job.mk "b" 2 "Unknown" "Part-time",
            Job.mk "c" 3 "Unknown" "On-site"] [(1:ℚ), 2, 2] "Senior" =
        some (with_salary "Senior" jb) :=
  ⟨(C7_thm [(1:ℚ), 2, 2] (by decide)).1,
   (C7_thm [(1:ℚ), 2, 2] (by decide)).2.2.2
     [Job.mk "a" 1 "India" "Contract", Job.mk "b" 2 "Unknown" "Part-time",
      Job.mk "c" 3 "Unknown" "On-site"] "Senior" (by decide)⟩

/-- The random fallback always lands in the fixed five-element set. -/
theorem pick_type_mem : ∀ k : Fin 5, pick_type k ∈ job_types := by decide

/-- C6: after the cleanup pass, provided the present (non-missing) raw
values respect the data model — present rates non-negative, present
countries non-empty, present job types in the fixed set — every record has
a non-negative rate (missing rates become `0`), a non-empty country
(missing countries become `"Unknown"`), and a job type in the fixed
five-value set (missing job types become a pick from that set). -/
theorem C6_thm : ∀ (raw : List RawJob) (picks : ℕ → Fin 5),
    (∀ r ∈ raw,
      (∀ q, r.avg_hourly_rate = some q → 0 ≤ q) ∧
      (∀ c, r.country = some c → c ≠ "") ∧
      (∀ t, r.job_type = some t → t ∈ job_types)) →
    ∀ j ∈ data_cleanup raw picks,
      0 ≤ j.avg_hourly_rate ∧ j.country ≠ "" ∧ j.job_type ∈ job_types := by
  intro raw
  induction raw with
  | nil =>
    intro picks _ j hj
    simp [data_cleanup] at hj
  | cons r rest ih =>
    intro picks hall j hj
    rw [data_cleanup] at hj
    rcases List.mem_cons.mp hj with hj | hj
    · subst hj
      obtain ⟨h1, h2, h3⟩ := hall r (List.mem_cons_self _ _)
      refine ⟨?_, ?_, ?_⟩
      · cases hr : r.avg_hourly_rate with
        | none => simp [clean_job, hr]
        | some q => simpa [clean_job, hr] using h1 q hr
      · cases hc : r.country with
        | none => simp [clean_job, hc]
        | some c => simpa [clean_job, hc] using h2 c hc
      · cases ht : r.job_type with
        | none => simpa [clean_job, ht] using pick_type_mem (picks 0)
        | some t => simpa [clean_job, ht] using h3 t ht
    · exact ih (fun i => picks (i + 1)) (fun r' hr' => hall r' (List.mem_cons_of_mem _ hr')) j hj

/-- C6 witness: a raw record with all three columns missing is cleaned to
rate `0`, country `"Unknown"` and the picked job type. -/
theorem C6_witness :
    0 ≤ (Job.mk "Dev" 0 "Unknown" "Permanent Full-time").avg_hourly_rate ∧
    (Job.mk "Dev" 0 "Unknown" "Permanent Full-time").country ≠ "" ∧
    (Job.mk "Dev" 0 "Unknown" "Permanent Full-time").job_type ∈ job_types :=
  C6_thm [RawJob.mk "Dev" none none none] (fun _ => 0)
    (by
      intro r hr
      rw [List.mem_singleton] at hr
      subst hr
      refine ⟨?_, ?_, ?_⟩ <;> exact fun x hx => Option.noConfusion hx)
    (Job.mk "Dev" 0 "Unknown" "Permanent Full-time")
    (by decide)

/-- C8: the empty search input and the empty skills input produce the idle
informational prompt instead of a result table, and resume analysis on
blank or whitespace-only text produces the warning and no match. -/
theorem C8_thm : ∀ (df : List Job) (vec : String → List ℚ) (lvl : String),
    recommend_section df vec "" = RecOut.info ∧
    skill_section df vec "" = SkillOut.info ∧
    ∀ txt, py_blank txt = true → resume_section df vec lvl txt = ResumeOut.warning := by
  intro df vec lvl
  refine ⟨rfl, rfl, ?_⟩
  intro txt h
  rw [resume_section, if_pos h]

/-- C8 witness: whitespace-only resume text triggers the warning. -/
theorem C8_witness :
    resume_section [] (fun _ => []) "Fresher" "  " = ResumeOut.warning :=
  (C8_thm [] (fun _ => []) "Fresher").2.2 "  " (by decide)

/-- C9: after the one-time load-and-normalize pass, none of the five
user-facing interactions mutates the corpus: each state transformer
returns the state unchanged (result tables, including the added
`"Formatted Salary"` column, are fresh values built by `with_salary`). -/
theorem C9_thm : ∀ (st : AppState) (vec : String → List ℚ) (q c lvl txt : String),
    (recommend_op st vec q).1 = st ∧
    (country_op st c).1 = st ∧
    (remote_op st).1 = st ∧
    (skill_op st vec q).1 = st ∧
    (resume_op st vec lvl txt).1 = st :=
  fun _ _ _ _ _ _ => ⟨rfl, rfl, rfl, rfl, rfl⟩

/-- C10: in the recommendation, country-filter and remote-listing tables,
every displayed row's formatted salary is computed with the experience
level hard-coded to `"Mid-Level"`, from that row's own rate and
country. -/
theorem C10_thm : ∀ (df : List Job) (s : List ℚ) (c : String),
    (∀ row ∈ recommend_results df s,
      row.formatted_salary = format_salary row.job.avg_hourly_rate row.job.country "Mid-Level") ∧
    (∀ row ∈ country_rows df c,
      row.formatted_salary = format_salary row.job.avg_hourly_rate row.job.country "Mid-Level") ∧
    (∀ row ∈ remote_rows df,
      row.formatted_salary = format_salary row.job.avg_hourly_rate row.job.country "Mid-Level") := by
  intro df s c
  refine ⟨?_, ?_, ?_⟩
  all_goals
    intro row hrow
    obtain ⟨j, hmem, rfl⟩ := List.mem_map.mp hrow
    rfl

/-- C10 witness: the single-record corpus filtered to `"India"` shows that
record with its salary formatted at `"Mid-Level"`. -/
theorem C10_witness :
    (with_salary "Mid-Level" (Job.mk "remote dev" 5 "India" "Contract")).formatted_salary =
      format_salary (Job.mk "remote dev" 5 "India" "Contract").avg_hourly_rate
        (Job.mk "remote dev" 5 "India" "Contract").country "Mid-Level" :=
  (C10_thm [Job.mk "remote dev" 5 "India" "Contract"] [1] "India").2.1
    (with_salary "Mid-Level" (Job.mk "remote dev" 5 "India" "Contract"))
    (by
      have h : country_rows [Job.mk "remote dev" 5 "India" "Contract"] "India" =
          [with_salary "Mid-Level" (Job.mk "remote dev" 5 "India" "Contract")] := rfl
      rw [h]
      exact List.mem_singleton.mpr rfl)
